import Mathlib

/-!
Verification of the prompt-orchestration and chat-session subsystem of the
huskygpt CLI (`src/chatgpt/index.ts` — the `ChatgptProxyAPI` class —,
`src/constant.ts`, and `src/chatgpt/prompt.ts`).

The embedding models:
* the continuation check based on the global regex
  `codeBlocksMdSymbolRegex = /```(\w?)*/g` (src/constant.ts line 265);
* `UserOptionsClass.securityPrompt` (src/constant.ts lines 226-232);
* `ChatgptProxyAPI.sendMessage`, `sendFileResult` and `run`
  (src/chatgpt/index.ts), with the remote chat API modelled as an oracle
  that consumes a prepared script of replies and records every outgoing
  request in a log;
* `HuskyGPTPrompt.generatePrompt` (src/chatgpt/prompt.ts), with the
  file-system, code-segmentation and template-store collaborators as
  explicit parameters.

Strings are modelled as Lean `String` / `List Char`; all definitions are
fuel- or structurally recursive, hence executable by the kernel.
-/

namespace HuskyGPT

/-- The backtick character, code point 96 (the markdown fence delimiter char). -/
def backtickChar : Char := Char.ofNat 96

/-- JS regex word-character class `\w`: ASCII letters, digits and underscore. -/
def isWordChar (c : Char) : Bool := c.isAlphanum || c = '_'

/-!
### Continuation check (src/chatgpt/index.ts lines 121-125, src/constant.ts line 265)

The source counts the matches of the global regex `/```(\w?)*/g` in the
reply text: `(resMessage.text.match(codeBlocksMdSymbolRegex) || []).length`.
A match of that regex starts at three consecutive backticks and greedily
consumes the following run of word characters; the global scan resumes
right after each consumed match.  `fenceMatchCountAux` renders that scan
with explicit fuel (one unit per inspected position, so the length of the
list is always enough fuel).
-/

/-- Number of matches of `codeBlocksMdSymbolRegex` in the text, by the
left-to-right global regex scan; `fuel` bounds the number of scan steps. -/
def fenceMatchCountAux : Nat → List Char → Nat
  | 0, _ => 0
  | _, [] => 0
  | fuel + 1, c :: rest =>
    if c = backtickChar ∧ rest.take 2 = [backtickChar, backtickChar] then
      fenceMatchCountAux fuel ((rest.drop 2).dropWhile isWordChar) + 1
    else
      fenceMatchCountAux fuel rest

/-- Value of `text.match(codeBlocksMdSymbolRegex).length` for the text given as a char list. -/
def fenceMatchCount (l : List Char) : Nat := fenceMatchCountAux l.length l

/-- Source condition at src/chatgpt/index.ts lines 122-125:
`(resMessage.text.match(codeBlocksMdSymbolRegex) || []).length % 2 === 1`. -/
def needsContinuation (s : String) : Bool := fenceMatchCount s.data % 2 == 1

/-- Spec-side count (`spec.md` §4.3/§8.1): the number of occurrences of the
markdown code-fence marker (three consecutive backticks) in the text,
counted by the standard left-to-right non-overlapping substring scan. -/
def fenceMarkerCountAux : Nat → List Char → Nat
  | 0, _ => 0
  | _, [] => 0
  | fuel + 1, c :: rest =>
    if c = backtickChar ∧ rest.take 2 = [backtickChar, backtickChar] then
      fenceMarkerCountAux fuel (rest.drop 2) + 1
    else
      fenceMarkerCountAux fuel rest

/-- Number of (non-overlapping) occurrences of the code-fence marker. -/
def fenceMarkerCount (l : List Char) : Nat := fenceMarkerCountAux l.length l

/-!
### Security redaction (src/constant.ts lines 226-232)

`UserOptionsClass.securityPrompt` returns the prompt unchanged when
`options.securityRegex` is unset (the empty string is falsy in JS), and
otherwise returns `prompt.replace(new RegExp(securityRegex, 'gi'), 'REMOVED')`.
The pattern is modelled as a literal substring (the spec's own reading in
§8.4: "a configured redaction pattern matching substring X"); the `i` flag
is rendered as ASCII case folding, the `g` flag as the left-to-right
non-overlapping global replacement scan.
-/

/-- Fixed placeholder inserted by the redaction (src/constant.ts line 231). -/
def removedChars : List Char := "REMOVED".data

/-- Case-insensitive equality of char lists (regex flag `i`, ASCII folding). -/
def lcEq (a b : List Char) : Bool := a.map Char.toLower == b.map Char.toLower

/-- Case-insensitive test for the pattern occurring at the head of the text. -/
def startsWithCI (pat l : List Char) : Bool := lcEq (l.take pat.length) pat

/-- Global case-insensitive replacement of every non-overlapping occurrence of
`pat` by `REMOVED`, left to right; the fuel (one unit per inspected position)
makes the scan structurally recursive. -/
def jsReplaceAllAux (pat : List Char) : Nat → List Char → List Char
  | 0, l => l
  | _ + 1, [] => []
  | fuel + 1, c :: rest =>
    if startsWithCI pat (c :: rest) then
      removedChars ++ jsReplaceAllAux pat fuel ((c :: rest).drop pat.length)
    else
      c :: jsReplaceAllAux pat fuel rest

/-- `UserOptionsClass.securityPrompt` (src/constant.ts lines 226-232). -/
def securityPrompt (securityRegex : String) (prompt : String) : String :=
  if securityRegex = "" then prompt
  else String.mk (jsReplaceAllAux securityRegex.data prompt.data.length prompt.data)

/-- Does the text contain a (case-insensitive) occurrence of the pattern? -/
def hasMatchCIAux (pat : List Char) : Nat → List Char → Bool
  | 0, _ => false
  | _ + 1, [] => false
  | fuel + 1, c :: rest => startsWithCI pat (c :: rest) || hasMatchCIAux pat fuel rest

/-- True when the pattern occurs (case-insensitively) somewhere in the text. -/
def hasMatchCI (pat l : List Char) : Bool := hasMatchCIAux pat l.length l

/-- Spec-side decomposition of a text at the left-to-right non-overlapping
case-insensitive occurrences of the pattern: first component the segments
between matches, second component the matched instances, so that the text is
the alternating interleaving of segments and instances. -/
def splitMatchesAux (pat : List Char) : Nat → List Char → List (List Char) × List (List Char)
  | 0, l => ([l], [])
  | _ + 1, [] => ([[]], [])
  | fuel + 1, c :: rest =>
    if startsWithCI pat (c :: rest) then
      let sm := splitMatchesAux pat fuel ((c :: rest).drop pat.length)
      ([] :: sm.1, (c :: rest).take pat.length :: sm.2)
    else
      match splitMatchesAux pat fuel rest with
      | (seg :: segs, ms) => ((c :: seg) :: segs, ms)
      | ([], ms) => ([[c]], ms)

/-- Decomposition of a text at the occurrences of the pattern. -/
def splitMatchesCI (pat l : List Char) : List (List Char) × List (List Char) :=
  splitMatchesAux pat l.length l

/-- Alternating interleaving: `joinAlt [s0, s1, ...] [m0, m1, ...]` is
`s0 ++ m0 ++ s1 ++ m1 ++ ...`. -/
def joinAlt : List (List Char) → List (List Char) → List Char
  | [], _ => []
  | s :: segs, [] => s ++ joinAlt segs []
  | s :: segs, m :: ms => s ++ m ++ joinAlt segs ms

/-!
### The session client and the remote API oracle (src/chatgpt/index.ts)

The remote chat API (`this.api.sendMessage`) is modelled as an oracle that
records every outgoing request in a log and consumes one reply per call from
a prepared script; an exhausted script behaves as a remote failure.  This
makes every possible remote behaviour (any reply texts, any failure point)
expressible by choosing the script.
-/

/-- A chat reply: text plus the two opaque correlation identifiers
(the fields of the library's `ChatMessage` that the subsystem uses). -/
structure ChatMessage where
  text : String
  id : String
  conversationId : String
deriving Repr, DecidableEq

/-- Parent context supplied with a chained request:
`{ conversationId, parentMessageId }`. -/
structure ParentContext where
  conversationId : String
  parentMessageId : String
deriving Repr, DecidableEq

/-- The `SendMessageOptions` fields the subsystem sets
(src/chatgpt/index.ts lines 108-117): parent identifiers spread from
`prevMessage`, the `timeoutMs` bound, and whether an abort signal is
attached.  The `onProgress` spinner callback is an observability side
effect with no data flow into the result and is not modelled. -/
structure SendMessageOptions where
  parent : Option ParentContext
  timeoutMs : Option Nat
  hasAbortSignal : Bool
deriving Repr, DecidableEq

/-- One outgoing request: the transmitted prompt text and the options
argument (`none` when `api.sendMessage` is called with no options). -/
structure Request where
  prompt : String
  options : Option SendMessageOptions
deriving Repr, DecidableEq

/-- A scripted remote reply: a successful `ChatMessage` or a rejection. -/
abbrev ApiReply := Except String ChatMessage

/-- Oracle state: the replies still to be served and the request log. -/
structure ApiState where
  script : List ApiReply
  log : List Request
deriving Repr

/-- One call of the remote API: log the request, serve the next scripted
reply (or fail when the script is exhausted). -/
def apiSendMessage (prompt : String) (opts : Option SendMessageOptions) (st : ApiState) :
    ApiReply × ApiState :=
  match st.script with
  | [] => (.error "remote failure",
      { script := [], log := st.log ++ [{ prompt := prompt, options := opts }] })
  | r :: rest => (r, { script := rest, log := st.log ++ [{ prompt := prompt, options := opts }] })

/-- Timeout set at src/chatgpt/index.ts line 111: `timeoutMs: 1000 * 60 * 5`. -/
def TIMEOUT_MS : Nat := 1000 * 60 * 5

/-- Literal continuation text (src/chatgpt/index.ts line 126). -/
def continueMessage : String := "continue"

/-- The identifier pair of a reply, as supplied for the next chained request
(src/chatgpt/index.ts lines 166-169 and 129-130). -/
def parentContextOf (m : ChatMessage) : ParentContext :=
  { conversationId := m.conversationId, parentMessageId := m.id }

/-- The options built at src/chatgpt/index.ts lines 108-117: the previous
message's identifiers, the 5-minute timeout, and the abort signal. -/
def sendOptionsFor (prev : ParentContext) : SendMessageOptions :=
  { parent := some prev, timeoutMs := some TIMEOUT_MS, hasAbortSignal := true }

/-- The merge at src/chatgpt/index.ts lines 133-137:
`{...resMessage, ...nextMessage, text: resMessage.text + nextMessage.text}` —
every field of the continuation reply supersedes the original's, except the
text which is the concatenation. -/
def mergeMessages (resMessage nextMessage : ChatMessage) : ChatMessage :=
  { nextMessage with text := resMessage.text ++ nextMessage.text }

/-- `ChatgptProxyAPI.sendMessage` (src/chatgpt/index.ts lines 93-152):
redact the prompt; with no previous message send it directly (no options);
otherwise send with the previous identifiers, the 5-minute timeout and the
abort signal, and if the reply's fence-marker count is odd send one
`continue` message chained to that reply and merge the two replies. -/
def sendMessage (securityRegex : String) (prompt : String)
    (prevMessage : Option ParentContext) (st : ApiState) : ApiReply × ApiState :=
  let sp := securityPrompt securityRegex prompt
  match prevMessage with
  | none => apiSendMessage sp none st
  | some prev =>
    let sendOptions := sendOptionsFor prev
    match apiSendMessage sp (some sendOptions) st with
    | (.error e, st1) => (.error e, st1)
    | (.ok resMessage, st1) =>
      if needsContinuation resMessage.text then
        match apiSendMessage continueMessage
            (some { sendOptions with parent := some (parentContextOf resMessage) }) st1 with
        | (.error e, st2) => (.error e, st2)
        | (.ok nextMessage, st2) => (.ok (mergeMessages resMessage nextMessage), st2)
      else (.ok resMessage, st1)

/-!
### The orchestration loop (src/chatgpt/index.ts lines 157-176, 200-228)

`sendFileResult` generates the prompt array, short-circuits when there are
no code prompts, bootstraps the conversation cursor (the `parentMessage`
instance field) when absent, then iterates over the code prompts, chaining
each request to the previous reply.  `run` catches any failure and returns
the fixed sentinel message.
-/

/-- The `for` loop of `sendFileResult` (src/chatgpt/index.ts lines 165-173):
process each code prompt with parent context taken from the current message,
collect the reply texts, and update the `parentMessage` field after every
successful reply.  A failed send aborts the loop and rethrows. -/
def sendFileLoop (securityRegex : String) : List String → ChatMessage → List String →
    Option ChatMessage → ApiState → Except String (List String) × Option ChatMessage × ApiState
  | [], _, messageArray, parentMessage, st => (.ok messageArray, parentMessage, st)
  | prompt :: rest, message, messageArray, parentMessage, st =>
    match sendMessage securityRegex prompt (some (parentContextOf message)) st with
    | (.error e, st1) => (.error e, parentMessage, st1)
    | (.ok m, st1) => sendFileLoop securityRegex rest m (messageArray ++ [m.text]) (some m) st1

/-- `ChatgptProxyAPI.sendFileResult` from the generated prompt array on
(src/chatgpt/index.ts lines 157-176): destructure
`[systemPrompt, ...codePrompts]`; return `[]` at once when there are no
code prompts; otherwise take the existing `parentMessage` as cursor or send
the system prompt (with no previous message) to establish one, then run the
loop. -/
def sendFileResultFromPrompts (securityRegex : String) (promptArray : List String)
    (parentMessage : Option ChatMessage) (st : ApiState) :
    Except String (List String) × Option ChatMessage × ApiState :=
  match promptArray with
  | [] => (.ok [], parentMessage, st)
  | systemPrompt :: codePrompts =>
    if codePrompts.isEmpty then (.ok [], parentMessage, st)
    else
      match parentMessage with
      | some message => sendFileLoop securityRegex codePrompts message [] parentMessage st
      | none =>
        match sendMessage securityRegex systemPrompt none st with
        | (.error e, st1) => (.error e, parentMessage, st1)
        | (.ok message, st1) => sendFileLoop securityRegex codePrompts message [] parentMessage st1

/-!
### The prompt builder (src/chatgpt/prompt.ts)

The file system (`fs.readFileSync`), the code segmentation collaborator
(`CodePicker.pickFunctionOrClassCodeArray`), the template store
(`readPromptFile`) and the optional custom instruction suffix are supplied
as explicit parameters, as they live outside the specified core.
-/

/-- The `IReadFileResult` argument: optional literal content, optional path. -/
structure IReadFileResult where
  fileContent : Option String
  filePath : Option String
deriving Repr

/-- The prompt builder's collaborators. -/
structure PromptEnv where
  readFileSync : Option String → Except String String
  pickFunctionOrClassCodeArray : String → List String
  readPromptFile : String → String
  openAIPrompt : Option String

/-- Modelled from the spec: the TaskKind enumeration
{Review, TestGeneration, CommitSummary} (spec.md §3).  The file src/types.ts
defining `HuskyGPTTypeEnum` is not among the sources, so the enumeration's
runtime string values are unknown; `huskyGPTTypeMap` in src/chatgpt/prompt.ts
registers a template for exactly these three kinds, and any other runtime
value fails the `!this.huskyGPTTypeMap[this.huskyGPTType]` check. -/
def registeredTaskKinds : List String := ["review", "test", "commit"]

/-- The content resolution `fileResult.fileContent || fs.readFileSync(fileResult.filePath!)`
shared by all three template branches (src/chatgpt/prompt.ts lines 13-15,
31-33, 47-49); the empty string is falsy in JS, so it also falls back to the
file system. -/
def resolveFileContent (env : PromptEnv) (fileResult : IReadFileResult) : Except String String :=
  match fileResult.fileContent with
  | some c => if c = "" then env.readFileSync fileResult.filePath else .ok c
  | none => env.readFileSync fileResult.filePath

/-- The task/system prompt: the task-kind template with the optional
user-supplied instruction suffix appended (src/chatgpt/prompt.ts lines 19-22). -/
def basePromptFor (env : PromptEnv) (huskyGPTType : String) : String :=
  env.readPromptFile huskyGPTType ++ (env.openAIPrompt.getD "")

/-- `HuskyGPTPrompt.generatePrompt` (src/chatgpt/prompt.ts lines 69-77):
fail when no `fileResult` is supplied, fail when the task kind has no
registered template, otherwise resolve the file content (propagating a file
system failure) and return the task prompt followed by one prompt per
extracted code unit. -/
def generatePrompt (env : PromptEnv) (huskyGPTType : String)
    (fileResult : Option IReadFileResult) : Except String (List String) :=
  match fileResult with
  | none => .error "File path is required for generatePrompt"
  | some fr =>
    if huskyGPTType ∈ registeredTaskKinds then
      match resolveFileContent env fr with
      | .error e => .error e
      | .ok fileContent =>
        .ok (basePromptFor env huskyGPTType :: env.pickFunctionOrClassCodeArray fileContent)
    else .error ("Invalid huskyGPTType: " ++ huskyGPTType)

/-- `ChatgptProxyAPI.sendFileResult` (src/chatgpt/index.ts lines 157-176):
generate the prompt array (a synchronous throw aborts before any remote
call), then process it. -/
def sendFileResult (env : PromptEnv) (securityRegex : String) (huskyGPTType : String)
    (fileResult : Option IReadFileResult) (parentMessage : Option ChatMessage)
    (st : ApiState) : Except String (List String) × Option ChatMessage × ApiState :=
  match generatePrompt env huskyGPTType fileResult with
  | .error e => (.error e, parentMessage, st)
  | .ok promptArray => sendFileResultFromPrompts securityRegex promptArray parentMessage st

/-- The fixed failure sentinel (src/chatgpt/index.ts line 223). -/
def failureSentinel : String := "[huskygpt] call OpenAI API failed!"

/-- `ChatgptProxyAPI.run` (src/chatgpt/index.ts lines 200-228): return the
reply texts on success; catch any error and return the single fixed
sentinel message instead. -/
def run (env : PromptEnv) (securityRegex : String) (huskyGPTType : String)
    (fileResult : Option IReadFileResult) (parentMessage : Option ChatMessage)
    (st : ApiState) : List String × Option ChatMessage × ApiState :=
  match sendFileResult env securityRegex huskyGPTType fileResult parentMessage st with
  | (.ok res, pm, st1) => (res, pm, st1)
  | (.error _, pm, st1) => ([failureSentinel], pm, st1)

/-!
### Spec-side trace predicates (spec.md §4.3, §4.4)

`Chained` and `FailBlock` state, in the spec's words, what the request
trace of one file-processing pass must look like; the theorems below prove
that the implementation's request log satisfies them.
-/

/-- Request issued for one code-unit prompt: the redacted prompt text, the
parent context equal to the current cursor's identifiers, the 5-minute
timeout and the abort signal. -/
def codeUnitRequest (securityRegex prompt : String) (cursor : ChatMessage) : Request :=
  { prompt := securityPrompt securityRegex prompt,
    options := some (sendOptionsFor (parentContextOf cursor)) }

/-- Continuation request: literal text `continue`, chained to the truncated
reply's own identifiers, same timeout and abort signal. -/
def continuationRequest (reply : ChatMessage) : Request :=
  { prompt := continueMessage,
    options := some (sendOptionsFor (parentContextOf reply)) }

/-- Trace predicate for spec.md §4.3-§4.4.
`Chained sr cursor prompts consumed requests texts final` holds when,
starting from conversation cursor `cursor`, processing the code-unit
`prompts` in order issues exactly `requests` (in order), consumes exactly
the scripted replies `consumed`, produces the reply texts `texts` (one per
prompt, in order), and ends with cursor `final`:
* each code-unit request is chained to the identifiers of the previous
  (possibly continuation-merged) reply — the cursor is never reset;
* a reply with an odd fence-marker count triggers exactly one continuation
  request with literal text `continue`, chained to that reply's own
  identifiers, and the merged reply (texts concatenated, identifiers of
  the continuation reply) becomes the new cursor and contributes the
  produced text;
* a reply with an even fence-marker count becomes the new cursor as is. -/
inductive Chained (sr : String) :
    ChatMessage → List String → List ApiReply → List Request → List String → ChatMessage → Prop
  | nil (cursor : ChatMessage) : Chained sr cursor [] [] [] [] cursor
  | step {cursor reply final : ChatMessage} {p : String} {ps : List String}
      {consumed : List ApiReply} {reqs : List Request} {texts : List String}
      (hno : needsContinuation reply.text = false)
      (htail : Chained sr reply ps consumed reqs texts final) :
      Chained sr cursor (p :: ps) (.ok reply :: consumed)
        (codeUnitRequest sr p cursor :: reqs) (reply.text :: texts) final
  | stepCont {cursor reply next final : ChatMessage} {p : String} {ps : List String}
      {consumed : List ApiReply} {reqs : List Request} {texts : List String}
      (hyes : needsContinuation reply.text = true)
      (htail : Chained sr (mergeMessages reply next) ps consumed reqs texts final) :
      Chained sr cursor (p :: ps) (.ok reply :: .ok next :: consumed)
        (codeUnitRequest sr p cursor :: continuationRequest reply :: reqs)
        ((reply.text ++ next.text) :: texts) final

/-- Failure of a single code-unit prompt: given the remaining script, exactly
the listed requests go out before the failure aborts the pass — the first
send fails (script exhausted or rejection), or the first reply triggers a
continuation whose send fails. -/
inductive FailBlock (sr : String) (p : String) (cursor : ChatMessage) :
    List ApiReply → List Request → Prop
  | exhausted : FailBlock sr p cursor [] [codeUnitRequest sr p cursor]
  | remoteError (e : String) (rest : List ApiReply) :
      FailBlock sr p cursor (.error e :: rest) [codeUnitRequest sr p cursor]
  | contExhausted {reply : ChatMessage} (hyes : needsContinuation reply.text = true) :
      FailBlock sr p cursor [.ok reply]
        [codeUnitRequest sr p cursor, continuationRequest reply]
  | contRemoteError {reply : ChatMessage} (e : String) (rest : List ApiReply)
      (hyes : needsContinuation reply.text = true) :
      FailBlock sr p cursor (.ok reply :: .error e :: rest)
        [codeUnitRequest sr p cursor, continuationRequest reply]

lemma fenceMarkerCountAux_fuel (f1 : Nat) :
    ∀ (f2 : Nat) (l : List Char), l.length ≤ f1 → l.length ≤ f2 →
      fenceMarkerCountAux f1 l = fenceMarkerCountAux f2 l := by
  induction f1 with
  | zero =>
    intro f2 l h1 _
    have : l = [] := List.length_eq_zero.mp (Nat.le_zero.mp h1)
    subst this
    cases f2 <;> rfl
  | succ f ih =>
    intro f2 l h1 h2
    cases l with
    | nil => cases f2 <;> rfl
    | cons c rest =>
      cases f2 with
      | zero => simp at h2
      | succ f2 =>
      simp only [fenceMarkerCountAux]
      have hrest : rest.length ≤ f := by simpa using h1
      have hrest2 : rest.length ≤ f2 := by simpa using h2
      split
      · have hd : (rest.drop 2).length ≤ rest.length := by
          rw [List.length_drop]; omega
        rw [ih f2 (rest.drop 2) (le_trans hd hrest) (le_trans hd hrest2)]
      · rw [ih f2 rest hrest hrest2]

lemma isWordChar_ne_backtick {c : Char} (h : isWordChar c = true) :
    c ≠ backtickChar := by
  intro hc
  subst hc
  simp [isWordChar, backtickChar, Char.isAlphanum, Char.isAlpha, Char.isDigit,
    Char.isUpper, Char.isLower] at h

/-- Scanning a run of word characters contributes no fence-marker occurrence. -/
lemma fenceMarkerCountAux_dropWhile :
    ∀ (fuel : Nat) (l : List Char), l.length ≤ fuel →
      fenceMarkerCountAux fuel (l.dropWhile isWordChar) = fenceMarkerCountAux fuel l := by
  intro fuel
  induction fuel with
  | zero =>
    intro l h1
    have : l = [] := List.length_eq_zero.mp (Nat.le_zero.mp h1)
    subst this; rfl
  | succ f ih =>
    intro l h1
    match l with
    | [] => rfl
    | c :: rest =>
      by_cases hw : isWordChar c
      · have hne : ¬ (c = backtickChar ∧ rest.take 2 = [backtickChar, backtickChar]) := by
          intro hcon
          exact isWordChar_ne_backtick hw hcon.1
        have hrest : rest.length ≤ f := by simpa using h1
        rw [List.dropWhile_cons_of_pos hw]
        conv_rhs => rw [show fenceMarkerCountAux (f + 1) (c :: rest) =
          fenceMarkerCountAux f rest by simp only [fenceMarkerCountAux, if_neg hne]]
        rw [← ih rest hrest]
        exact fenceMarkerCountAux_fuel (f + 1) f (rest.dropWhile isWordChar)
          (le_trans ((List.dropWhile_sublist _).length_le) (le_trans hrest (Nat.le_succ f)))
          (le_trans ((List.dropWhile_sublist _).length_le) hrest)
      · rw [List.dropWhile_cons_of_neg hw]

/-- The regex-match count of `codeBlocksMdSymbolRegex` equals the plain
non-overlapping occurrence count of the fence marker: the `(\w?)*` suffix
of a match never contains a backtick, so skipping it drops no occurrence. -/
lemma fenceMatchCountAux_eq_marker :
    ∀ (fuel : Nat) (l : List Char), l.length ≤ fuel →
      fenceMatchCountAux fuel l = fenceMarkerCountAux fuel l := by
  intro fuel
  induction fuel with
  | zero => intro l _; cases l <;> rfl
  | succ f ih =>
    intro l h1
    match l with
    | [] => rfl
    | c :: rest =>
      simp only [fenceMatchCountAux, fenceMarkerCountAux]
      have hrest : rest.length ≤ f := by simpa using h1
      have hd : (rest.drop 2).length ≤ rest.length := by
        rw [List.length_drop]; omega
      split
      · have hdw : ((rest.drop 2).dropWhile isWordChar).length ≤ f :=
          le_trans ((List.dropWhile_sublist _).length_le) (le_trans hd hrest)
        rw [ih _ hdw]
        rw [fenceMarkerCountAux_fuel f (f + 1) _
          hdw (le_trans hdw (Nat.le_succ f))]
        rw [fenceMarkerCountAux_dropWhile (f + 1) (rest.drop 2)
          (le_trans hd (le_trans hrest (Nat.le_succ f)))]
        rw [fenceMarkerCountAux_fuel (f + 1) f _ (le_trans hd (le_trans hrest (Nat.le_succ f)))
          (le_trans hd hrest)]
      · exact ih rest hrest

lemma fenceMatchCount_eq_fenceMarkerCount (l : List Char) :
    fenceMatchCount l = fenceMarkerCount l :=
  fenceMatchCountAux_eq_marker l.length l (le_refl _)

/-- Claim C1: the continuation check used after a reply returns true iff the
number of occurrences of the markdown code-fence marker in the text is odd
(occurrences counted by the standard left-to-right non-overlapping scan, as
the global regex does); in particular a text with exactly one fence marker
triggers a continuation and texts with zero or two fence markers do not. -/
theorem continuation_iff_odd_fence_count :
    (∀ s : String, needsContinuation s = true ↔ fenceMarkerCount s.data % 2 = 1) ∧
    (needsContinuation "a```b" = true ∧ fenceMarkerCount "a```b".data = 1) ∧
    (needsContinuation "no fence" = false ∧ fenceMarkerCount "no fence".data = 0) ∧
    (needsContinuation "```ts x ```" = false ∧ fenceMarkerCount "```ts x ```".data = 2) := by
  refine ⟨fun s => ?_, by decide, by decide, by decide⟩
  rw [needsContinuation, fenceMatchCount_eq_fenceMarkerCount]
  simp

/-!
### Behaviour of `sendMessage` on the possible script shapes
-/

lemma sendMessage_script_nil (sr p : String) (prev : ParentContext) (log : List Request) :
    sendMessage sr p (some prev) ⟨[], log⟩ =
      (.error "remote failure",
        ⟨[], log ++ [{ prompt := securityPrompt sr p, options := some (sendOptionsFor prev) }]⟩) :=
  rfl

lemma sendMessage_script_error (sr p : String) (prev : ParentContext) (e : String)
    (rest : List ApiReply) (log : List Request) :
    sendMessage sr p (some prev) ⟨.error e :: rest, log⟩ =
      (.error e,
        ⟨rest, log ++ [{ prompt := securityPrompt sr p, options := some (sendOptionsFor prev) }]⟩) :=
  rfl

lemma sendMessage_ok_nocont (sr p : String) (prev : ParentContext) (r : ChatMessage)
    (rest : List ApiReply) (log : List Request) (h : needsContinuation r.text = false) :
    sendMessage sr p (some prev) ⟨.ok r :: rest, log⟩ =
      (.ok r,
        ⟨rest, log ++ [{ prompt := securityPrompt sr p, options := some (sendOptionsFor prev) }]⟩) := by
  simp [sendMessage, apiSendMessage, h]

lemma sendMessage_ok_cont (sr p : String) (prev : ParentContext) (r n : ChatMessage)
    (rest : List ApiReply) (log : List Request) (h : needsContinuation r.text = true) :
    sendMessage sr p (some prev) ⟨.ok r :: .ok n :: rest, log⟩ =
      (.ok (mergeMessages r n),
        ⟨rest, log ++ [{ prompt := securityPrompt sr p, options := some (sendOptionsFor prev) },
          continuationRequest r]⟩) := by
  simp [sendMessage, apiSendMessage, h, continuationRequest, sendOptionsFor]

lemma sendMessage_ok_cont_nil (sr p : String) (prev : ParentContext) (r : ChatMessage)
    (log : List Request) (h : needsContinuation r.text = true) :
    sendMessage sr p (some prev) ⟨[.ok r], log⟩ =
      (.error "remote failure",
        ⟨[], log ++ [{ prompt := securityPrompt sr p, options := some (sendOptionsFor prev) },
          continuationRequest r]⟩) := by
  simp [sendMessage, apiSendMessage, h, continuationRequest, sendOptionsFor]

lemma sendMessage_ok_cont_error (sr p : String) (prev : ParentContext) (r : ChatMessage)
    (e : String) (rest : List ApiReply) (log : List Request)
    (h : needsContinuation r.text = true) :
    sendMessage sr p (some prev) ⟨.ok r :: .error e :: rest, log⟩ =
      (.error e,
        ⟨rest, log ++ [{ prompt := securityPrompt sr p, options := some (sendOptionsFor prev) },
          continuationRequest r]⟩) := by
  simp [sendMessage, apiSendMessage, h, continuationRequest, sendOptionsFor]

lemma sendMessage_none_eq (sr p : String) (st : ApiState) :
    (sendMessage sr p none st).2.log =
      st.log ++ [{ prompt := securityPrompt sr p, options := none }] := by
  rcases st with ⟨script, log⟩
  cases script <;> rfl

/-- Claim C2: when a continuation is triggered for a reply with text `A` and the
continuation reply has text `B`, the merged reply's text is exactly `A ++ B`
(no separator), and its id and conversationId are the continuation reply's. -/
theorem continuation_merge (sr p : String) (prev : ParentContext) (r n : ChatMessage)
    (rest : List ApiReply) (log : List Request) (h : needsContinuation r.text = true) :
    (sendMessage sr p (some prev) ⟨.ok r :: .ok n :: rest, log⟩).1 =
      .ok { text := r.text ++ n.text, id := n.id, conversationId := n.conversationId } := by
  rw [sendMessage_ok_cont sr p prev r n rest log h]
  rfl

/-- Witness for C2: first reply text has one fence marker, so a continuation is
triggered; the merged reply concatenates the texts and takes the continuation
reply's identifiers. -/
theorem continuation_merge_witness :
    needsContinuation "a```b" = true ∧
    (sendMessage "" "q" (some ⟨"cv", "mid"⟩)
        ⟨[.ok ⟨"a```b", "id1", "cv1"⟩, .ok ⟨"done", "id2", "cv2"⟩], []⟩).1 =
      .ok { text := "a```bdone", id := "id2", conversationId := "cv2" } :=
  ⟨by decide,
    continuation_merge "" "q" ⟨"cv", "mid"⟩ ⟨"a```b", "id1", "cv1"⟩ ⟨"done", "id2", "cv2"⟩
      [] [] (by decide)⟩

/-- Counterexample to claim C7 as stated: the first request of a conversation
(`sendMessage` with no previous message, src/chatgpt/index.ts lines 100-102)
is sent with no options at all — no 5-minute `timeoutMs` bound and no abort
signal — so it is not the case that every request sent to the remote chat API
carries the fixed 5-minute bound and a cancellation token. -/
theorem timeout_missing_on_first_request :
    ¬ (∀ r ∈ (sendMessage "" "hi" none ⟨[.ok ⟨"t", "i", "c"⟩], []⟩).2.log,
        ∃ o, r.options = some o ∧ o.timeoutMs = some TIMEOUT_MS ∧ o.hasAbortSignal = true) := by
  intro h
  have hmem : ({ prompt := "hi", options := none } : Request) ∈
      (sendMessage "" "hi" none ⟨[.ok ⟨"t", "i", "c"⟩], []⟩).2.log := by
    rw [sendMessage_none_eq]
    decide
  obtain ⟨o, ho, -, -⟩ := h _ hmem
  simp at ho

/-- Claim C7 (amended): every request sent with a previous-message context —
every code-unit request and every continuation request — carries
`timeoutMs = 1000 * 60 * 5` and an attached abort signal; the first request of
a conversation (no previous message) is sent without options, hence with
neither the timeout bound nor the abort signal. -/
theorem timeout_on_chained_requests :
    (∀ (sr p : String) (prev : ParentContext) (st : ApiState) (r : Request),
      r ∈ (sendMessage sr p (some prev) st).2.log → r ∈ st.log ∨
        ∃ o, r.options = some o ∧ o.timeoutMs = some TIMEOUT_MS ∧ o.hasAbortSignal = true) ∧
    (∀ (sr p : String) (st : ApiState),
      (sendMessage sr p none st).2.log =
        st.log ++ [{ prompt := securityPrompt sr p, options := none }]) := by
  constructor
  · intro sr p prev st r hr
    rcases st with ⟨script, log⟩
    match script with
    | [] =>
      rw [sendMessage_script_nil] at hr
      simp only [List.mem_append, List.mem_singleton] at hr
      rcases hr with hr | hr
      · exact Or.inl hr
      · exact Or.inr ⟨sendOptionsFor prev, by simp [hr, sendOptionsFor]⟩
    | .error e :: rest =>
      rw [sendMessage_script_error] at hr
      simp only [List.mem_append, List.mem_singleton] at hr
      rcases hr with hr | hr
      · exact Or.inl hr
      · exact Or.inr ⟨sendOptionsFor prev, by simp [hr, sendOptionsFor]⟩
    | .ok m :: rest =>
      by_cases hc : needsContinuation m.text
      · match rest with
        | [] =>
          rw [sendMessage_ok_cont_nil sr p prev m log hc] at hr
          simp only [List.mem_append, List.mem_cons, List.mem_singleton,
            List.not_mem_nil, or_false] at hr
          rcases hr with hr | hr | hr
          · exact Or.inl hr
          · exact Or.inr ⟨sendOptionsFor prev, by simp [hr, sendOptionsFor]⟩
          · exact Or.inr ⟨sendOptionsFor (parentContextOf m),
              by simp [hr, continuationRequest, sendOptionsFor]⟩
        | .error e :: rest2 =>
          rw [sendMessage_ok_cont_error sr p prev m e rest2 log hc] at hr
          simp only [List.mem_append, List.mem_cons, List.mem_singleton,
            List.not_mem_nil, or_false] at hr
          rcases hr with hr | hr | hr
          · exact Or.inl hr
          · exact Or.inr ⟨sendOptionsFor prev, by simp [hr, sendOptionsFor]⟩
          · exact Or.inr ⟨sendOptionsFor (parentContextOf m),
              by simp [hr, continuationRequest, sendOptionsFor]⟩
        | .ok n :: rest2 =>
          rw [sendMessage_ok_cont sr p prev m n rest2 log hc] at hr
          simp only [List.mem_append, List.mem_cons, List.mem_singleton,
            List.not_mem_nil, or_false] at hr
          rcases hr with hr | hr | hr
          · exact Or.inl hr
          · exact Or.inr ⟨sendOptionsFor prev, by simp [hr, sendOptionsFor]⟩
          · exact Or.inr ⟨sendOptionsFor (parentContextOf m),
              by simp [hr, continuationRequest, sendOptionsFor]⟩
      · rw [sendMessage_ok_nocont sr p prev m rest log (by simpa using hc)] at hr
        simp only [List.mem_append, List.mem_singleton] at hr
        rcases hr with hr | hr
        · exact Or.inl hr
        · exact Or.inr ⟨sendOptionsFor prev, by simp [hr, sendOptionsFor]⟩
  · intro sr p st
    exact sendMessage_none_eq sr p st

/-- Witness for the amended C7: in a concrete chained send, the one issued
request indeed carries the 5-minute timeout and the abort signal. -/
theorem timeout_on_chained_requests_witness :
    ({ prompt := "x", options := some (sendOptionsFor ⟨"cv", "mid"⟩) } : Request) ∈
      (sendMessage "" "x" (some ⟨"cv", "mid"⟩) ⟨[.ok ⟨"t", "i", "c"⟩], []⟩).2.log ∧
    (({ prompt := "x", options := some (sendOptionsFor ⟨"cv", "mid"⟩) } : Request) ∈
        ([] : List Request) ∨
      ∃ o, ({ prompt := "x", options := some (sendOptionsFor ⟨"cv", "mid"⟩) } : Request).options =
          some o ∧ o.timeoutMs = some TIMEOUT_MS ∧ o.hasAbortSignal = true) :=
  ⟨by decide,
    timeout_on_chained_requests.1 "" "x" ⟨"cv", "mid"⟩ ⟨[.ok ⟨"t", "i", "c"⟩], []⟩ _ (by decide)⟩

/-- Claim C8: per reply, at most one continuation request is issued — a call of
`sendMessage` sends at most two requests in total, and even when the merged
text still has an odd fence-marker count the exchange stops after the single
`continue` request (exactly two requests logged, exactly two scripted replies
consumed, no re-continuation). -/
theorem at_most_one_continuation :
    (∀ (sr p : String) (prev : ParentContext) (st : ApiState),
      ((sendMessage sr p (some prev) st).2.log).length ≤ st.log.length + 2) ∧
    (∀ (sr p : String) (prev : ParentContext) (r n : ChatMessage)
        (rest : List ApiReply) (log : List Request),
      needsContinuation r.text = true →
      needsContinuation (r.text ++ n.text) = true →
      sendMessage sr p (some prev) ⟨.ok r :: .ok n :: rest, log⟩ =
        (.ok (mergeMessages r n),
          ⟨rest, log ++ [{ prompt := securityPrompt sr p, options := some (sendOptionsFor prev) },
            continuationRequest r]⟩)) := by
  constructor
  · intro sr p prev st
    rcases st with ⟨script, log⟩
    match script with
    | [] => rw [sendMessage_script_nil]; simp
    | .error e :: rest => rw [sendMessage_script_error]; simp
    | .ok m :: rest =>
      by_cases hc : needsContinuation m.text
      · match rest with
        | [] => rw [sendMessage_ok_cont_nil sr p prev m log hc]; simp
        | .error e :: rest2 => rw [sendMessage_ok_cont_error sr p prev m e rest2 log hc]; simp
        | .ok n :: rest2 => rw [sendMessage_ok_cont sr p prev m n rest2 log hc]; simp
      · rw [sendMessage_ok_nocont sr p prev m rest log (by simpa using hc)]; simp
  · intro sr p prev r n rest log h _
    exact sendMessage_ok_cont sr p prev r n rest log h

/-- Witness for C8: a merged text that still has an odd fence count — the
exchange nevertheless stops after exactly one continuation request. -/
theorem at_most_one_continuation_witness :
    needsContinuation "```" = true ∧
    needsContinuation ("```" ++ "x") = true ∧
    sendMessage "" "q" (some ⟨"cv", "mid"⟩) ⟨[.ok ⟨"```", "i1", "c1"⟩, .ok ⟨"x", "i2", "c2"⟩], []⟩ =
      (.ok (mergeMessages ⟨"```", "i1", "c1"⟩ ⟨"x", "i2", "c2"⟩),
        ⟨[], [{ prompt := securityPrompt "" "q", options := some (sendOptionsFor ⟨"cv", "mid"⟩) },
          continuationRequest ⟨"```", "i1", "c1"⟩]⟩) :=
  ⟨by decide, by decide,
    at_most_one_continuation.2 "" "q" ⟨"cv", "mid"⟩ ⟨"```", "i1", "c1"⟩ ⟨"x", "i2", "c2"⟩ [] []
      (by decide) (by decide)⟩

/-!
### Redaction lemmas
-/

lemma lcEq_length {a b : List Char} (h : lcEq a b = true) : a.length = b.length := by
  simp only [lcEq, beq_iff_eq] at h
  have := congrArg List.length h
  simpa using this

lemma startsWithCI_le {pat l : List Char} (h : startsWithCI pat l = true) :
    pat.length ≤ l.length := by
  simp only [startsWithCI] at h
  have := lcEq_length h
  rw [List.length_take] at this
  omega

lemma startsWithCI_append {pat a : List Char} (b : List Char)
    (h : startsWithCI pat a = true) : startsWithCI pat (a ++ b) = true := by
  have hle := startsWithCI_le h
  simp only [startsWithCI] at h ⊢
  rw [List.take_append_eq_append_take, Nat.sub_eq_zero_of_le hle, List.take_zero,
    List.append_nil]
  exact h

lemma hasMatchCI_nil (pat : List Char) : hasMatchCI pat [] = false := rfl

lemma hasMatchCI_cons (pat : List Char) (c : Char) (l : List Char) :
    hasMatchCI pat (c :: l) = (startsWithCI pat (c :: l) || hasMatchCI pat l) := rfl

lemma hasMatchCI_of_startsWithCI {pat : List Char} (hpat : pat ≠ []) :
    ∀ (a b : List Char), startsWithCI pat b = true → hasMatchCI pat (a ++ b) = true := by
  intro a
  induction a with
  | nil =>
    intro b hb
    cases b with
    | nil =>
      have := lcEq_length (by simpa [startsWithCI] using hb)
      simp at this
      exact absurd (List.length_eq_zero.mp this.symm) hpat
    | cons c l => simpa [hasMatchCI_cons] using Or.inl hb
  | cons c a ih =>
    intro b hb
    rw [List.cons_append, hasMatchCI_cons]
    simp [ih b hb]

lemma jsReplaceAllAux_no_match (pat : List Char) :
    ∀ (fuel : Nat) (l : List Char), hasMatchCIAux pat fuel l = false →
      jsReplaceAllAux pat fuel l = l := by
  intro fuel
  induction fuel with
  | zero => intro l _; rfl
  | succ f ih =>
    intro l h
    cases l with
    | nil => rfl
    | cons c rest =>
      simp only [hasMatchCIAux, Bool.or_eq_false_iff] at h
      simp only [jsReplaceAllAux, h.1, Bool.false_eq_true, if_false]
      rw [ih rest h.2]

lemma joinAlt_cons_nil (s : List Char) (segs : List (List Char)) :
    joinAlt (s :: segs) [] = s ++ joinAlt segs [] := rfl

lemma joinAlt_cons_cons (s m : List Char) (segs ms : List (List Char)) :
    joinAlt (s :: segs) (m :: ms) = s ++ m ++ joinAlt segs ms := rfl

lemma joinAlt_cons_exists (s : List Char) (segs ms : List (List Char)) :
    ∃ t, joinAlt (s :: segs) ms = s ++ t := by
  cases ms with
  | nil => exact ⟨joinAlt segs [], rfl⟩
  | cons m ms => exact ⟨m ++ joinAlt segs ms, by rw [joinAlt_cons_cons, List.append_assoc]⟩

lemma joinAlt_cons_head (c : Char) (s : List Char) (segs ms : List (List Char)) :
    joinAlt ((c :: s) :: segs) ms = c :: joinAlt (s :: segs) ms := by
  cases ms with
  | nil => rw [joinAlt_cons_nil, joinAlt_cons_nil, List.cons_append]
  | cons m ms => rw [joinAlt_cons_cons, joinAlt_cons_cons]; simp

/-- Master property of the split-at-matches decomposition: it reconstructs the
text, every matched instance is case-insensitively equal to the pattern, no
segment contains a match, and the global replacement is the interleaving with
every instance replaced by the placeholder. -/
lemma splitMatches_master (pat : List Char) (hpat : pat ≠ []) :
    ∀ (fuel : Nat) (l : List Char), l.length ≤ fuel →
      (splitMatchesAux pat fuel l).1 ≠ [] ∧
      (splitMatchesAux pat fuel l).1.length = (splitMatchesAux pat fuel l).2.length + 1 ∧
      joinAlt (splitMatchesAux pat fuel l).1 (splitMatchesAux pat fuel l).2 = l ∧
      (∀ m ∈ (splitMatchesAux pat fuel l).2, lcEq m pat = true) ∧
      (∀ s ∈ (splitMatchesAux pat fuel l).1, hasMatchCI pat s = false) ∧
      jsReplaceAllAux pat fuel l =
        joinAlt (splitMatchesAux pat fuel l).1
          ((splitMatchesAux pat fuel l).2.map (fun _ => removedChars)) := by
  intro fuel
  induction fuel with
  | zero =>
    intro l hl
    have : l = [] := List.length_eq_zero.mp (Nat.le_zero.mp hl)
    subst this
    refine ⟨by simp [splitMatchesAux], by simp [splitMatchesAux], rfl, by simp [splitMatchesAux],
      ?_, rfl⟩
    intro s hs
    simp [splitMatchesAux] at hs
    simp [hs, hasMatchCI_nil]
  | succ f ih =>
    intro l hl
    cases l with
    | nil =>
      refine ⟨by simp [splitMatchesAux], by simp [splitMatchesAux], rfl, by simp [splitMatchesAux],
        ?_, rfl⟩
      intro s hs
      simp [splitMatchesAux] at hs
      simp [hs, hasMatchCI_nil]
    | cons c rest =>
      have hplen : 1 ≤ pat.length := by
        cases pat with
        | nil => exact absurd rfl hpat
        | cons a b => simp
      by_cases hs : startsWithCI pat (c :: rest) = true
      · have hdlen : ((c :: rest).drop pat.length).length ≤ f := by
          rw [List.length_drop]
          simp only [List.length_cons] at hl ⊢
          omega
        obtain ⟨ih1, ih2, ih3, ih4, ih5, ih6⟩ := ih ((c :: rest).drop pat.length) hdlen
        have hsplit : splitMatchesAux pat (f + 1) (c :: rest) =
            ([] :: (splitMatchesAux pat f ((c :: rest).drop pat.length)).1,
              (c :: rest).take pat.length ::
                (splitMatchesAux pat f ((c :: rest).drop pat.length)).2) := by
          simp [splitMatchesAux, hs]
        have hrepl : jsReplaceAllAux pat (f + 1) (c :: rest) =
            removedChars ++ jsReplaceAllAux pat f ((c :: rest).drop pat.length) := by
          simp [jsReplaceAllAux, hs]
        rw [hsplit, hrepl]
        refine ⟨by simp, by simp [ih2], ?_, ?_, ?_, ?_⟩
        · rw [joinAlt_cons_cons, List.nil_append, ih3, List.take_append_drop]
        · intro m hm
          rcases List.mem_cons.mp hm with hm | hm
          · subst hm
            simpa [startsWithCI] using hs
          · exact ih4 m hm
        · intro s hsm
          rcases List.mem_cons.mp hsm with hsm | hsm
          · subst hsm; exact hasMatchCI_nil pat
          · exact ih5 s hsm
        · rw [List.map_cons, joinAlt_cons_cons, List.nil_append, ih6]
      · have hrlen : rest.length ≤ f := by simpa using hl
        obtain ⟨ih1, ih2, ih3, ih4, ih5, ih6⟩ := ih rest hrlen
        rcases hsm : splitMatchesAux pat f rest with ⟨segs1, ms1⟩
        rw [hsm] at ih1 ih2 ih3 ih4 ih5 ih6
        cases segs1 with
        | nil => exact absurd rfl ih1
        | cons seg segs =>
          have hsplit : splitMatchesAux pat (f + 1) (c :: rest) =
              ((c :: seg) :: segs, ms1) := by
            simp [splitMatchesAux, hs, hsm]
          have hrepl : jsReplaceAllAux pat (f + 1) (c :: rest) =
              c :: jsReplaceAllAux pat f rest := by
            simp [jsReplaceAllAux, hs]
          rw [hsplit, hrepl]
          refine ⟨by simp, by simpa using ih2, ?_, ih4, ?_, ?_⟩
          · rw [joinAlt_cons_head, ih3]
          · intro s hsmem
            rcases List.mem_cons.mp hsmem with hsmem | hsmem
            · subst hsmem
              rw [hasMatchCI_cons]
              have hseg : hasMatchCI pat seg = false := ih5 seg (List.mem_cons_self _ _)
              have hstart : startsWithCI pat (c :: seg) = false := by
                by_contra hcon
                rw [Bool.not_eq_false] at hcon
                obtain ⟨t, ht⟩ := joinAlt_cons_exists seg segs ms1
                rw [ih3] at ht
                have : startsWithCI pat ((c :: seg) ++ t) = true := startsWithCI_append t hcon
                rw [List.cons_append, ← ht] at this
                exact absurd this (by simpa using hs)
              rw [hstart, hseg]
              rfl
            · exact ih5 s (List.mem_cons_of_mem _ hsmem)
          · rw [ih6, joinAlt_cons_head]

lemma string_ne_empty_data {p : String} (hp : p ≠ "") : p.data ≠ [] := by
  intro h
  apply hp
  cases p
  simp_all

/-- Claim C6 (amended): redaction applies to every caller-supplied prompt —
with no configured pattern the text is unchanged; with a configured pattern
and no match the text is unchanged; with a configured pattern the transmitted
text is the interleaving of the match-free segments with the fixed placeholder
`REMOVED` substituted for every (case-insensitive, non-overlapping) matched
occurrence of the pattern.  Every `sendMessage` call transmits the redacted
prompt as its first request; any further request it issues is the fixed
literal continuation message `continue`, which is NOT passed through the
redaction. -/
theorem security_redaction :
    (∀ t : String, securityPrompt "" t = t) ∧
    (∀ p t : String, p ≠ "" → hasMatchCI p.data t.data = false → securityPrompt p t = t) ∧
    (∀ p t : String, p ≠ "" →
      joinAlt (splitMatchesCI p.data t.data).1 (splitMatchesCI p.data t.data).2 = t.data ∧
      (∀ m ∈ (splitMatchesCI p.data t.data).2, lcEq m p.data = true) ∧
      (∀ s ∈ (splitMatchesCI p.data t.data).1, hasMatchCI p.data s = false) ∧
      (securityPrompt p t).data =
        joinAlt (splitMatchesCI p.data t.data).1
          ((splitMatchesCI p.data t.data).2.map (fun _ => removedChars))) ∧
    (∀ (sr prompt : String) (prev : Option ParentContext) (st : ApiState),
      ∃ opts tail,
        (sendMessage sr prompt prev st).2.log =
          st.log ++ { prompt := securityPrompt sr prompt, options := opts } :: tail ∧
        ∀ r ∈ tail, r.prompt = continueMessage) := by
  refine ⟨fun t => rfl, ?_, ?_, ?_⟩
  · intro p t hp hno
    have h1 := jsReplaceAllAux_no_match p.data t.data.length t.data hno
    have h2 : securityPrompt p t = String.mk t.data := by
      simp only [securityPrompt, if_neg hp, h1]
    rw [h2]
  · intro p t hp
    obtain ⟨-, -, h3, h4, h5, h6⟩ :=
      splitMatches_master p.data (string_ne_empty_data hp) t.data.length t.data (le_refl _)
    refine ⟨h3, h4, h5, ?_⟩
    have h2 : securityPrompt p t = String.mk (jsReplaceAllAux p.data t.data.length t.data) := by
      simp only [securityPrompt, if_neg hp]
    rw [h2]
    exact h6
  · intro sr prompt prev st
    rcases st with ⟨script, log⟩
    cases prev with
    | none =>
      exact ⟨none, [], by rw [sendMessage_none_eq], by simp⟩
    | some prev =>
      match script with
      | [] =>
        exact ⟨some (sendOptionsFor prev), [], by rw [sendMessage_script_nil], by simp⟩
      | .error e :: rest =>
        exact ⟨some (sendOptionsFor prev), [], by rw [sendMessage_script_error], by simp⟩
      | .ok m :: rest =>
        by_cases hc : needsContinuation m.text
        · match rest with
          | [] =>
            refine ⟨some (sendOptionsFor prev), [continuationRequest m], ?_, ?_⟩
            · rw [sendMessage_ok_cont_nil sr prompt prev m log hc]
            · intro r hr
              simp only [List.mem_singleton] at hr
              simp [hr, continuationRequest]
          | .error e :: rest2 =>
            refine ⟨some (sendOptionsFor prev), [continuationRequest m], ?_, ?_⟩
            · rw [sendMessage_ok_cont_error sr prompt prev m e rest2 log hc]
            · intro r hr
              simp only [List.mem_singleton] at hr
              simp [hr, continuationRequest]
          | .ok n :: rest2 =>
            refine ⟨some (sendOptionsFor prev), [continuationRequest m], ?_, ?_⟩
            · rw [sendMessage_ok_cont sr prompt prev m n rest2 log hc]
            · intro r hr
              simp only [List.mem_singleton] at hr
              simp [hr, continuationRequest]
        · exact ⟨some (sendOptionsFor prev), [],
            by rw [sendMessage_ok_nocont sr prompt prev m rest log (by simpa using hc)], by simp⟩

/-- Witness for the amended C6: a concrete pattern and text — the text
decomposes into match-free segments around the matched substring, and the
redacted transmission substitutes the placeholder exactly there. -/
theorem security_redaction_witness :
    joinAlt (splitMatchesCI "tin".data "continue".data).1
        (splitMatchesCI "tin".data "continue".data).2 = "continue".data ∧
    (∀ m ∈ (splitMatchesCI "tin".data "continue".data).2, lcEq m "tin".data = true) ∧
    (∀ s ∈ (splitMatchesCI "tin".data "continue".data).1,
      hasMatchCI "tin".data s = false) ∧
    (securityPrompt "tin" "continue").data =
      joinAlt (splitMatchesCI "tin".data "continue".data).1
        ((splitMatchesCI "tin".data "continue".data).2.map (fun _ => removedChars)) :=
  security_redaction.2.2.1 "tin" "continue" (by decide)

/-- Counterexample to claim C6 as stated: not every outgoing message is
redacted.  With configured pattern `tin`, a reply with an odd fence count
makes `sendMessage` transmit the literal continuation text `continue`
verbatim (src/chatgpt/index.ts lines 126-131 call the api directly, without
`userOptions.securityPrompt`), although `continue` contains a match of the
pattern and redaction would have altered it. -/
theorem redaction_missed_on_continuation :
    ((sendMessage "tin" "p" (some ⟨"cv", "mid"⟩)
        ⟨[.ok ⟨"```", "i1", "c1"⟩, .ok ⟨"x", "i2", "c2"⟩], []⟩).2.log.map Request.prompt =
      ["p", "continue"]) ∧
    hasMatchCI "tin".data "continue".data = true ∧
    securityPrompt "tin" "continue" ≠ "continue" := by
  refine ⟨?_, by decide, by decide⟩
  rw [sendMessage_ok_cont "tin" "p" ⟨"cv", "mid"⟩ ⟨"```", "i1", "c1"⟩ ⟨"x", "i2", "c2"⟩ [] []
    (by decide)]
  rfl

/-!
### Structure of the orchestration loop
-/

lemma sendMessage_ok_inv {sr p : String} {prev : ParentContext} {st : ApiState}
    {m1 : ChatMessage} {st1 : ApiState}
    (h : sendMessage sr p (some prev) st = (.ok m1, st1)) :
    (∃ r rest1, st.script = .ok r :: rest1 ∧ needsContinuation r.text = false ∧ m1 = r ∧
      st1 = ⟨rest1, st.log ++
        [{ prompt := securityPrompt sr p, options := some (sendOptionsFor prev) }]⟩) ∨
    (∃ r n rest1, st.script = .ok r :: .ok n :: rest1 ∧ needsContinuation r.text = true ∧
      m1 = mergeMessages r n ∧
      st1 = ⟨rest1, st.log ++
        [{ prompt := securityPrompt sr p, options := some (sendOptionsFor prev) },
          continuationRequest r]⟩) := by
  rcases st with ⟨script, log⟩
  match script with
  | [] => rw [sendMessage_script_nil] at h; simp at h
  | .error e :: rest => rw [sendMessage_script_error] at h; simp at h
  | .ok r :: rest =>
    by_cases hc : needsContinuation r.text
    · match rest with
      | [] => rw [sendMessage_ok_cont_nil sr p prev r log hc] at h; simp at h
      | .error e :: rest2 =>
        rw [sendMessage_ok_cont_error sr p prev r e rest2 log hc] at h; simp at h
      | .ok n :: rest2 =>
        rw [sendMessage_ok_cont sr p prev r n rest2 log hc] at h
        simp only [Prod.mk.injEq, Except.ok.injEq] at h
        exact Or.inr ⟨r, n, rest2, rfl, hc, h.1.symm, h.2.symm⟩
    · rw [sendMessage_ok_nocont sr p prev r rest log (by simpa using hc)] at h
      simp only [Prod.mk.injEq, Except.ok.injEq] at h
      exact Or.inl ⟨r, rest, rfl, by simpa using hc, h.1.symm, h.2.symm⟩

lemma sendMessage_error_inv {sr p : String} {prev : ParentContext} {st : ApiState}
    {e : String} {st1 : ApiState}
    (h : sendMessage sr p (some prev) st = (.error e, st1)) :
    (st.script = [] ∧
      st1 = ⟨[], st.log ++
        [{ prompt := securityPrompt sr p, options := some (sendOptionsFor prev) }]⟩) ∨
    (∃ rest1, st.script = .error e :: rest1 ∧
      st1 = ⟨rest1, st.log ++
        [{ prompt := securityPrompt sr p, options := some (sendOptionsFor prev) }]⟩) ∨
    (∃ r, st.script = [.ok r] ∧ needsContinuation r.text = true ∧
      st1 = ⟨[], st.log ++
        [{ prompt := securityPrompt sr p, options := some (sendOptionsFor prev) },
          continuationRequest r]⟩) ∨
    (∃ r rest1, st.script = .ok r :: .error e :: rest1 ∧ needsContinuation r.text = true ∧
      st1 = ⟨rest1, st.log ++
        [{ prompt := securityPrompt sr p, options := some (sendOptionsFor prev) },
          continuationRequest r]⟩) := by
  rcases st with ⟨script, log⟩
  match script with
  | [] =>
    rw [sendMessage_script_nil] at h
    simp only [Prod.mk.injEq, Except.error.injEq] at h
    exact Or.inl ⟨rfl, h.2.symm⟩
  | .error e2 :: rest =>
    rw [sendMessage_script_error] at h
    simp only [Prod.mk.injEq, Except.error.injEq] at h
    exact Or.inr (Or.inl ⟨rest, by rw [h.1], by rw [h.2]⟩)
  | .ok r :: rest =>
    by_cases hc : needsContinuation r.text
    · match rest with
      | [] =>
        rw [sendMessage_ok_cont_nil sr p prev r log hc] at h
        simp only [Prod.mk.injEq, Except.error.injEq] at h
        exact Or.inr (Or.inr (Or.inl ⟨r, rfl, hc, h.2.symm⟩))
      | .error e2 :: rest2 =>
        rw [sendMessage_ok_cont_error sr p prev r e2 rest2 log hc] at h
        simp only [Prod.mk.injEq, Except.error.injEq] at h
        exact Or.inr (Or.inr (Or.inr ⟨r, rest2, by rw [h.1], hc, h.2.symm⟩))
      | .ok n :: rest2 =>
        rw [sendMessage_ok_cont sr p prev r n rest2 log hc] at h
        simp at h
    · rw [sendMessage_ok_nocont sr p prev r rest log (by simpa using hc)] at h
      simp at h

lemma sendFileLoop_cons_error {sr p : String} {m : ChatMessage} {st st1 : ApiState}
    {e : String} (rest : List String) (acc : List String) (pm : Option ChatMessage)
    (h : sendMessage sr p (some (parentContextOf m)) st = (.error e, st1)) :
    sendFileLoop sr (p :: rest) m acc pm st = (.error e, pm, st1) := by
  simp [sendFileLoop, h]

lemma sendFileLoop_cons_ok {sr p : String} {m m1 : ChatMessage} {st st1 : ApiState}
    (rest : List String) (acc : List String) (pm : Option ChatMessage)
    (h : sendMessage sr p (some (parentContextOf m)) st = (.ok m1, st1)) :
    sendFileLoop sr (p :: rest) m acc pm st =
      sendFileLoop sr rest m1 (acc ++ [m1.text]) (some m1) st1 := by
  simp [sendFileLoop, h]

/-- Success structure of the loop: a successful pass over the code prompts is
exactly a `Chained` trace — it consumes one (or, with a continuation, two)
scripted replies per prompt, appends exactly the chained requests to the log,
appends one reply text per prompt to the accumulator, and leaves the cursor
at the final merged reply. -/
lemma sendFileLoop_ok (sr : String) :
    ∀ (ps : List String) (m : ChatMessage) (acc : List String) (pm : Option ChatMessage)
      (st : ApiState) (out : List String) (pm2 : Option ChatMessage) (st2 : ApiState),
      sendFileLoop sr ps m acc pm st = (.ok out, pm2, st2) →
      ∃ consumed reqs texts final,
        Chained sr m ps consumed reqs texts final ∧
        st.script = consumed ++ st2.script ∧
        st2.log = st.log ++ reqs ∧
        out = acc ++ texts ∧
        ((ps = [] ∧ pm2 = pm ∧ st2 = st) ∨ (ps ≠ [] ∧ pm2 = some final)) := by
  intro ps
  induction ps with
  | nil =>
    intro m acc pm st out pm2 st2 h
    simp only [sendFileLoop, Prod.mk.injEq, Except.ok.injEq] at h
    obtain ⟨hout, hpm, hst⟩ := h
    exact ⟨[], [], [], m, Chained.nil m, by simp [← hst], by simp [← hst], by simp [← hout],
      Or.inl ⟨rfl, hpm.symm, hst.symm⟩⟩
  | cons p rest ih =>
    intro m acc pm st out pm2 st2 h
    rcases hsm : sendMessage sr p (some (parentContextOf m)) st with ⟨res, st1⟩
    cases res with
    | error e =>
      rw [sendFileLoop_cons_error rest acc pm hsm] at h
      simp at h
    | ok m1 =>
      rw [sendFileLoop_cons_ok rest acc pm hsm] at h
      obtain ⟨consumed, reqs, texts, final, hch, hscript, hlog, hout, hlast⟩ :=
        ih m1 (acc ++ [m1.text]) (some m1) st1 out pm2 st2 h
      have hpm2 : pm2 = some final := by
        rcases hlast with ⟨hrest, hpm2, hst2⟩ | ⟨hrest, hpm2⟩
        · subst hrest
          cases hch
          exact hpm2
        · exact hpm2
      rcases sendMessage_ok_inv hsm with ⟨r, rest1, hsc, hnc, hm1, hst1⟩ |
        ⟨r, n, rest1, hsc, hnc, hm1, hst1⟩
      · subst hm1
        subst hst1
        refine ⟨.ok m1 :: consumed, codeUnitRequest sr p m :: reqs, m1.text :: texts, final,
          Chained.step hnc hch, ?_, ?_, ?_, Or.inr ⟨by simp, hpm2⟩⟩
        · rw [hsc]
          simp only [List.cons_append, List.cons.injEq, true_and]
          exact hscript
        · rw [hlog]
          simp [codeUnitRequest]
        · rw [hout]
          simp
      · subst hm1
        subst hst1
        refine ⟨.ok r :: .ok n :: consumed,
          codeUnitRequest sr p m :: continuationRequest r :: reqs,
          (r.text ++ n.text) :: texts, final,
          Chained.stepCont hnc hch, ?_, ?_, ?_, Or.inr ⟨by simp, hpm2⟩⟩
        · rw [hsc]
          simp only [List.cons_append, List.cons.injEq, true_and]
          exact hscript
        · rw [hlog]
          simp [codeUnitRequest]
        · rw [hout]
          simp [mergeMessages]

/-- Failure structure of the loop: a failed pass is a `Chained` trace over a
strict prefix of the code prompts followed by a `FailBlock` for the first
prompt whose send fails; nothing is logged for any later prompt. -/
lemma sendFileLoop_error (sr : String) :
    ∀ (ps : List String) (m : ChatMessage) (acc : List String) (pm : Option ChatMessage)
      (st : ApiState) (e : String) (pm2 : Option ChatMessage) (st2 : ApiState),
      sendFileLoop sr ps m acc pm st = (.error e, pm2, st2) →
      ∃ k, ∃ hk : k < ps.length, ∃ consumed reqs texts cursor blockScript freqs,
        Chained sr m (ps.take k) consumed reqs texts cursor ∧
        FailBlock sr (ps.get ⟨k, hk⟩) cursor blockScript freqs ∧
        st.script = consumed ++ blockScript ∧
        st2.log = st.log ++ reqs ++ freqs := by
  intro ps
  induction ps with
  | nil =>
    intro m acc pm st e pm2 st2 h
    simp [sendFileLoop] at h
  | cons p rest ih =>
    intro m acc pm st e pm2 st2 h
    rcases hsm : sendMessage sr p (some (parentContextOf m)) st with ⟨res, st1⟩
    cases res with
    | error e2 =>
      rw [sendFileLoop_cons_error rest acc pm hsm] at h
      simp only [Prod.mk.injEq, Except.error.injEq] at h
      obtain ⟨he, hpm, hst⟩ := h
      subst hst
      rcases sendMessage_error_inv hsm with ⟨hsc, hst1⟩ | ⟨rest1, hsc, hst1⟩ |
        ⟨r, hsc, hnc, hst1⟩ | ⟨r, rest1, hsc, hnc, hst1⟩
      · subst hst1
        exact ⟨0, by simp, [], [], [], m, [], [codeUnitRequest sr p m],
          Chained.nil m, FailBlock.exhausted, by simpa using hsc, by simp [codeUnitRequest]⟩
      · subst hst1
        exact ⟨0, by simp, [], [], [], m, .error e2 :: rest1, [codeUnitRequest sr p m],
          Chained.nil m, FailBlock.remoteError e2 rest1, by simpa using hsc,
          by simp [codeUnitRequest]⟩
      · subst hst1
        exact ⟨0, by simp, [], [], [], m, [.ok r],
          [codeUnitRequest sr p m, continuationRequest r],
          Chained.nil m, FailBlock.contExhausted hnc, by simpa using hsc,
          by simp [codeUnitRequest]⟩
      · subst hst1
        exact ⟨0, by simp, [], [], [], m, .ok r :: .error e2 :: rest1,
          [codeUnitRequest sr p m, continuationRequest r],
          Chained.nil m, FailBlock.contRemoteError e2 rest1 hnc, by simpa using hsc,
          by simp [codeUnitRequest]⟩
    | ok m1 =>
      rw [sendFileLoop_cons_ok rest acc pm hsm] at h
      obtain ⟨k, hk, consumed, reqs, texts, cursor, blockScript, freqs,
        hch, hfb, hscript, hlog⟩ := ih m1 (acc ++ [m1.text]) (some m1) st1 e pm2 st2 h
      rcases sendMessage_ok_inv hsm with ⟨r, rest1, hsc, hnc, hm1, hst1⟩ |
        ⟨r, n, rest1, hsc, hnc, hm1, hst1⟩
      · subst hm1
        subst hst1
        refine ⟨k + 1, by simpa using Nat.succ_lt_succ hk, .ok m1 :: consumed,
          codeUnitRequest sr p m :: reqs, m1.text :: texts, cursor, blockScript,
          freqs, ?_, ?_, ?_, ?_⟩
        · rw [List.take_succ_cons]
          exact Chained.step hnc hch
        · simpa using hfb
        · rw [hsc]
          simp only [List.cons_append, List.cons.injEq, true_and]
          exact hscript
        · rw [hlog]
          simp [codeUnitRequest]
      · subst hm1
        subst hst1
        refine ⟨k + 1, by simpa using Nat.succ_lt_succ hk, .ok r :: .ok n :: consumed,
          codeUnitRequest sr p m :: continuationRequest r :: reqs,
          (r.text ++ n.text) :: texts, cursor, blockScript, freqs, ?_, ?_, ?_, ?_⟩
        · rw [List.take_succ_cons]
          exact Chained.stepCont hnc hch
        · simpa using hfb
        · rw [hsc]
          simp only [List.cons_append, List.cons.injEq, true_and]
          exact hscript
        · rw [hlog]
          simp [codeUnitRequest]

/-- Counting a `Chained` trace: one produced text per prompt, and one request
per prompt plus one per continuation-triggered reply (the continuation count
is at most the number of prompts); the scripted replies consumed match the
requests one for one. -/
lemma Chained.counts {sr : String} {cursor final : ChatMessage} {ps : List String}
    {consumed : List ApiReply} {reqs : List Request} {texts : List String}
    (h : Chained sr cursor ps consumed reqs texts final) :
    texts.length = ps.length ∧
    ∃ cc, cc ≤ ps.length ∧ reqs.length = ps.length + cc ∧ consumed.length = ps.length + cc := by
  induction h with
  | nil => exact ⟨rfl, 0, by simp, rfl, rfl⟩
  | step hno htail ih =>
    obtain ⟨ht, cc, hcc, hr, hc⟩ := ih
    exact ⟨by simp [ht], cc, by simp; omega, by simp [hr]; omega, by simp [hc]; omega⟩
  | stepCont hyes htail ih =>
    obtain ⟨ht, cc, hcc, hr, hc⟩ := ih
    exact ⟨by simp [ht], cc + 1, by simp; omega, by simp [hr]; omega, by simp [hc]; omega⟩

lemma sendMessage_none_ok_inv {sr p : String} {st : ApiState} {m1 : ChatMessage}
    {st1 : ApiState} (h : sendMessage sr p none st = (.ok m1, st1)) :
    ∃ rest1, st.script = .ok m1 :: rest1 ∧
      st1 = ⟨rest1, st.log ++ [{ prompt := securityPrompt sr p, options := none }]⟩ := by
  rcases st with ⟨script, log⟩
  match script with
  | [] => simp [sendMessage, apiSendMessage] at h
  | .error e :: rest => simp [sendMessage, apiSendMessage] at h
  | .ok r :: rest =>
    simp only [sendMessage, apiSendMessage, Prod.mk.injEq, Except.ok.injEq] at h
    exact ⟨rest, by rw [h.1], h.2.symm⟩

lemma sendFileResultFromPrompts_cons_some (sr sys p : String) (ps : List String)
    (m0 : ChatMessage) (st : ApiState) :
    sendFileResultFromPrompts sr (sys :: p :: ps) (some m0) st =
      sendFileLoop sr (p :: ps) m0 [] (some m0) st := rfl

lemma sendFileResultFromPrompts_cons_none_ok {sr sys : String} {st st1 : ApiState}
    {m0 : ChatMessage} (p : String) (ps : List String)
    (h : sendMessage sr sys none st = (.ok m0, st1)) :
    sendFileResultFromPrompts sr (sys :: p :: ps) none st =
      sendFileLoop sr (p :: ps) m0 [] none st1 := by
  simp [sendFileResultFromPrompts, h]

lemma sendFileResultFromPrompts_cons_none_error {sr sys : String} {st st1 : ApiState}
    {e : String} (p : String) (ps : List String)
    (h : sendMessage sr sys none st = (.error e, st1)) :
    sendFileResultFromPrompts sr (sys :: p :: ps) none st = (.error e, none, st1) := by
  simp [sendFileResultFromPrompts, h]

/-- Claim C4: when the generated PromptSet contains only the task prompt and
no code-unit prompts, processing the unit returns an empty message sequence
and leaves the oracle state untouched — no request is made to the remote
chat API at all. -/
theorem empty_prompt_set (env : PromptEnv) (sr t : String) (fr : Option IReadFileResult)
    (pm : Option ChatMessage) (st : ApiState) (p : String)
    (h : generatePrompt env t fr = .ok [p]) :
    sendFileResult env sr t fr pm st = (.ok [], pm, st) := by
  simp [sendFileResult, h, sendFileResultFromPrompts]

/-- Witness for C4: a code picker that extracts no code units makes the
prompt builder yield only the task prompt, and the unit is processed with an
empty result and no remote request. -/
theorem empty_prompt_set_witness :
    generatePrompt
        { readFileSync := fun _ => .ok "content",
          pickFunctionOrClassCodeArray := fun _ => [],
          readPromptFile := fun _ => "T", openAIPrompt := none }
        "review" (some { fileContent := some "code", filePath := none }) = .ok ["T"] ∧
    sendFileResult
        { readFileSync := fun _ => .ok "content",
          pickFunctionOrClassCodeArray := fun _ => [],
          readPromptFile := fun _ => "T", openAIPrompt := none }
        "" "review" (some { fileContent := some "code", filePath := none }) none ⟨[], []⟩ =
      (.ok [], none, ⟨[], []⟩) :=
  ⟨rfl, empty_prompt_set _ "" "review" _ none ⟨[], []⟩ "T" rfl⟩

/-- Counterexample to claim C3 as stated: a PromptSet with N = 1 code-unit
prompt, no prior conversation cursor, and one continuation-triggering reply
issues 3 requests (bootstrap task prompt + code prompt + continuation),
which is neither N nor N + 1. -/
theorem request_count_counterexample :
    (sendFileResultFromPrompts "" ["s", "c"] none
        ⟨[.ok ⟨"boot", "ia", "ca"⟩, .ok ⟨"```", "ib", "cb"⟩, .ok ⟨"done", "ic", "cc"⟩],
          []⟩).2.2.log.length = 3 ∧
    ¬ ((3 : Nat) = 1 ∨ (3 : Nat) = 1 + 1) :=
  ⟨by decide, by decide⟩

/-- Claim C3 (amended): for a PromptSet with N code-unit prompts, a successful
pass issues its requests in strict left-to-right order: one bootstrap request
when and only when no prior cursor exists, then per code-unit prompt one
chained request plus one continuation request for each continuation-triggered
reply (so N + cc requests with cc ≤ N, plus the possible bootstrap).  The
`Chained` trace witnesses that the parent context of every code-unit request
equals the identifiers of the previous (possibly continuation-merged) reply,
starting from the cursor (the prior `parentMessage`, or the bootstrap reply),
and that the cursor — retained as `parentMessage` — is never reset mid-file. -/
theorem chained_requests (sr sys : String) (ps : List String) (pm : Option ChatMessage)
    (st : ApiState) (out : List String) (pm2 : Option ChatMessage) (st2 : ApiState)
    (hne : ps ≠ [])
    (h : sendFileResultFromPrompts sr (sys :: ps) pm st = (.ok out, pm2, st2)) :
    ∃ start consumed reqs texts final cc,
      Chained sr start ps consumed reqs texts final ∧
      pm2 = some final ∧
      cc ≤ ps.length ∧ reqs.length = ps.length + cc ∧
      ((∃ m0, pm = some m0 ∧ start = m0 ∧
          st2.log = st.log ++ reqs ∧ st.script = consumed ++ st2.script) ∨
        (pm = none ∧ ∃ rest1, st.script = .ok start :: rest1 ∧
          st2.log = st.log ++ { prompt := securityPrompt sr sys, options := none } :: reqs ∧
          rest1 = consumed ++ st2.script)) := by
  cases ps with
  | nil => exact absurd rfl hne
  | cons p ps1 =>
    cases pm with
    | some m0 =>
      rw [sendFileResultFromPrompts_cons_some] at h
      obtain ⟨consumed, reqs, texts, final, hch, hscript, hlog, hout, hlast⟩ :=
        sendFileLoop_ok sr (p :: ps1) m0 [] (some m0) st out pm2 st2 h
      obtain ⟨-, cc, hcc, hreqs, -⟩ := Chained.counts hch
      have hpm2 : pm2 = some final := by
        rcases hlast with ⟨hc, -, -⟩ | ⟨-, hpm2⟩
        · simp at hc
        · exact hpm2
      exact ⟨m0, consumed, reqs, texts, final, cc, hch, hpm2, hcc, hreqs,
        Or.inl ⟨m0, rfl, rfl, hlog, hscript⟩⟩
    | none =>
      rcases hb : sendMessage sr sys none st with ⟨resb, st1⟩
      cases resb with
      | error e =>
        rw [sendFileResultFromPrompts_cons_none_error p ps1 hb] at h
        simp at h
      | ok m0 =>
        rw [sendFileResultFromPrompts_cons_none_ok p ps1 hb] at h
        obtain ⟨consumed, reqs, texts, final, hch, hscript, hlog, hout, hlast⟩ :=
          sendFileLoop_ok sr (p :: ps1) m0 [] none st1 out pm2 st2 h
        obtain ⟨-, cc, hcc, hreqs, -⟩ := Chained.counts hch
        have hpm2 : pm2 = some final := by
          rcases hlast with ⟨hc, -, -⟩ | ⟨-, hpm2⟩
          · simp at hc
          · exact hpm2
        obtain ⟨rest1, hsc, hst1⟩ := sendMessage_none_ok_inv hb
        refine ⟨m0, consumed, reqs, texts, final, cc, hch, hpm2, hcc, hreqs,
          Or.inr ⟨rfl, rest1, hsc, ?_, ?_⟩⟩
        · rw [hlog, hst1]
          simp
        · rw [hst1] at hscript
          exact hscript

/-- Witness for the amended C3: a prior cursor exists, one code prompt, no
continuation — exactly one chained request, carrying the prior cursor's
identifiers. -/
theorem chained_requests_witness :
    (["c"] ≠ ([] : List String)) ∧
    (∃ start consumed reqs texts final cc,
      Chained "" start ["c"] consumed reqs texts final ∧
      (some ⟨"t", "i1", "cv1"⟩ : Option ChatMessage) = some final ∧
      cc ≤ (["c"] : List String).length ∧
      reqs.length = (["c"] : List String).length + cc ∧
      ((∃ m0, (some ⟨"p0", "i0", "cv0"⟩ : Option ChatMessage) = some m0 ∧ start = m0 ∧
          (⟨[], [codeUnitRequest "" "c" ⟨"p0", "i0", "cv0"⟩]⟩ : ApiState).log =
            (⟨[.ok ⟨"t", "i1", "cv1"⟩], []⟩ : ApiState).log ++ reqs ∧
          (⟨[.ok ⟨"t", "i1", "cv1"⟩], []⟩ : ApiState).script =
            consumed ++ (⟨[], [codeUnitRequest "" "c" ⟨"p0", "i0", "cv0"⟩]⟩ : ApiState).script) ∨
        ((some ⟨"p0", "i0", "cv0"⟩ : Option ChatMessage) = none ∧
          ∃ rest1, (⟨[.ok ⟨"t", "i1", "cv1"⟩], []⟩ : ApiState).script = .ok start :: rest1 ∧
          (⟨[], [codeUnitRequest "" "c" ⟨"p0", "i0", "cv0"⟩]⟩ : ApiState).log =
            (⟨[.ok ⟨"t", "i1", "cv1"⟩], []⟩ : ApiState).log ++
              { prompt := securityPrompt "" "s", options := none } :: reqs ∧
          rest1 = consumed ++
            (⟨[], [codeUnitRequest "" "c" ⟨"p0", "i0", "cv0"⟩]⟩ : ApiState).script))) :=
  ⟨by decide,
    chained_requests "" "s" ["c"] (some ⟨"p0", "i0", "cv0"⟩) ⟨[.ok ⟨"t", "i1", "cv1"⟩], []⟩
      ["t"] (some ⟨"t", "i1", "cv1"⟩) ⟨[], [codeUnitRequest "" "c" ⟨"p0", "i0", "cv0"⟩]⟩
      (by decide) rfl⟩

/-- Claim C10: a successful file-processing pass with N code-unit prompts
returns exactly N reply texts, one per code-unit prompt in order (the
`Chained` trace produces them); the bootstrap task-prompt reply is consumed
only as the initial cursor and its text is never part of the returned
sequence. -/
theorem reply_per_code_prompt (sr sys : String) (ps : List String) (pm : Option ChatMessage)
    (st : ApiState) (out : List String) (pm2 : Option ChatMessage) (st2 : ApiState)
    (hne : ps ≠ [])
    (h : sendFileResultFromPrompts sr (sys :: ps) pm st = (.ok out, pm2, st2)) :
    out.length = ps.length ∧
    ∃ start consumed reqs final, Chained sr start ps consumed reqs out final := by
  cases ps with
  | nil => exact absurd rfl hne
  | cons p ps1 =>
    cases pm with
    | some m0 =>
      rw [sendFileResultFromPrompts_cons_some] at h
      obtain ⟨consumed, reqs, texts, final, hch, -, -, hout, -⟩ :=
        sendFileLoop_ok sr (p :: ps1) m0 [] (some m0) st out pm2 st2 h
      obtain ⟨htexts, -⟩ := Chained.counts hch
      have : out = texts := by simpa using hout
      subst this
      exact ⟨htexts, m0, consumed, reqs, final, hch⟩
    | none =>
      rcases hb : sendMessage sr sys none st with ⟨resb, st1⟩
      cases resb with
      | error e =>
        rw [sendFileResultFromPrompts_cons_none_error p ps1 hb] at h
        simp at h
      | ok m0 =>
        rw [sendFileResultFromPrompts_cons_none_ok p ps1 hb] at h
        obtain ⟨consumed, reqs, texts, final, hch, -, -, hout, -⟩ :=
          sendFileLoop_ok sr (p :: ps1) m0 [] none st1 out pm2 st2 h
        obtain ⟨htexts, -⟩ := Chained.counts hch
        have : out = texts := by simpa using hout
        subst this
        exact ⟨htexts, m0, consumed, reqs, final, hch⟩

/-- Witness for C10: two code prompts, two reply texts, in order. -/
theorem reply_per_code_prompt_witness :
    (["c1", "c2"] ≠ ([] : List String)) ∧
    (["r1", "r2"] : List String).length = (["c1", "c2"] : List String).length ∧
    (∃ start consumed reqs final,
      Chained "" start ["c1", "c2"] consumed reqs ["r1", "r2"] final) :=
  ⟨by decide,
    (reply_per_code_prompt "" "s" ["c1", "c2"] (some ⟨"p0", "i0", "cv0"⟩)
      ⟨[.ok ⟨"r1", "i1", "cv1"⟩, .ok ⟨"r2", "i2", "cv2"⟩], []⟩ ["r1", "r2"]
      (some ⟨"r2", "i2", "cv2"⟩)
      ⟨[], [codeUnitRequest "" "c1" ⟨"p0", "i0", "cv0"⟩,
        codeUnitRequest "" "c2" ⟨"r1", "i1", "cv1"⟩]⟩
      (by decide) rfl).1,
    (reply_per_code_prompt "" "s" ["c1", "c2"] (some ⟨"p0", "i0", "cv0"⟩)
      ⟨[.ok ⟨"r1", "i1", "cv1"⟩, .ok ⟨"r2", "i2", "cv2"⟩], []⟩ ["r1", "r2"]
      (some ⟨"r2", "i2", "cv2"⟩)
      ⟨[], [codeUnitRequest "" "c1" ⟨"p0", "i0", "cv0"⟩,
        codeUnitRequest "" "c2" ⟨"r1", "i1", "cv1"⟩]⟩
      (by decide) rfl).2⟩

/-- Claim C5: when sending code-unit prompt k fails, the pass is a `Chained`
trace over the first k prompts followed by a `FailBlock` for prompt k — the
log shows no request for any prompt after k — and `run` catches the error and
returns exactly the single fixed failure sentinel message instead of partial
results or a crash. -/
theorem failure_isolation :
    (∀ (sr : String) (ps : List String) (m : ChatMessage) (acc : List String)
        (pm : Option ChatMessage) (st : ApiState) (e : String) (pm2 : Option ChatMessage)
        (st2 : ApiState),
      sendFileLoop sr ps m acc pm st = (.error e, pm2, st2) →
      ∃ k, ∃ hk : k < ps.length, ∃ consumed reqs texts cursor blockScript freqs,
        Chained sr m (ps.take k) consumed reqs texts cursor ∧
        FailBlock sr (ps.get ⟨k, hk⟩) cursor blockScript freqs ∧
        st.script = consumed ++ blockScript ∧
        st2.log = st.log ++ reqs ++ freqs) ∧
    (∀ (env : PromptEnv) (sr t : String) (fr : Option IReadFileResult)
        (pm : Option ChatMessage) (st : ApiState) (e : String) (pm2 : Option ChatMessage)
        (st2 : ApiState),
      sendFileResult env sr t fr pm st = (.error e, pm2, st2) →
      run env sr t fr pm st = ([failureSentinel], pm2, st2)) := by
  constructor
  · exact fun sr => sendFileLoop_error sr
  · intro env sr t fr pm st e pm2 st2 h
    simp [run, h]

/-- Witness for C5: the first of two code prompts fails (scripted rejection),
so the trace is an empty chain plus a fail block for prompt 0 — no request
for the second prompt — and a concrete failing `sendFileResult` makes `run`
return the single sentinel message. -/
theorem failure_isolation_witness :
    (sendFileLoop "" ["c1", "c2"] ⟨"b", "i0", "cv0"⟩ [] none ⟨[.error "boom"], []⟩ =
      (.error "boom", none, ⟨[], [codeUnitRequest "" "c1" ⟨"b", "i0", "cv0"⟩]⟩)) ∧
    (∃ k, ∃ hk : k < (["c1", "c2"] : List String).length,
      ∃ consumed reqs texts cursor blockScript freqs,
        Chained "" ⟨"b", "i0", "cv0"⟩ ((["c1", "c2"] : List String).take k)
          consumed reqs texts cursor ∧
        FailBlock "" ((["c1", "c2"] : List String).get ⟨k, hk⟩) cursor blockScript freqs ∧
        (⟨[.error "boom"], []⟩ : ApiState).script = consumed ++ blockScript ∧
        (⟨[], [codeUnitRequest "" "c1" ⟨"b", "i0", "cv0"⟩]⟩ : ApiState).log =
          (⟨[.error "boom"], []⟩ : ApiState).log ++ reqs ++ freqs) ∧
    run
      { readFileSync := fun _ => .ok "x",
        pickFunctionOrClassCodeArray := fun _ => ["c1", "c2"],
        readPromptFile := fun _ => "T", openAIPrompt := none }
      "" "review" (some { fileContent := some "code", filePath := none }) none
      ⟨[.ok ⟨"b", "i0", "cv0"⟩, .error "boom"], []⟩ =
      ([failureSentinel], none,
        ⟨[], [{ prompt := "T", options := none },
          codeUnitRequest "" "c1" ⟨"b", "i0", "cv0"⟩]⟩) :=
  ⟨rfl,
    failure_isolation.1 "" ["c1", "c2"] ⟨"b", "i0", "cv0"⟩ [] none ⟨[.error "boom"], []⟩
      "boom" none ⟨[], [codeUnitRequest "" "c1" ⟨"b", "i0", "cv0"⟩]⟩ rfl,
    failure_isolation.2
      { readFileSync := fun _ => .ok "x",
        pickFunctionOrClassCodeArray := fun _ => ["c1", "c2"],
        readPromptFile := fun _ => "T", openAIPrompt := none }
      "" "review" (some { fileContent := some "code", filePath := none }) none
      ⟨[.ok ⟨"b", "i0", "cv0"⟩, .error "boom"], []⟩ "boom" none
      ⟨[], [{ prompt := "T", options := none },
        codeUnitRequest "" "c1" ⟨"b", "i0", "cv0"⟩]⟩ rfl⟩

/-- Claim C9: the prompt builder fails synchronously — with the
missing-input error when no file result is supplied, with the
invalid-task-kind error (the code's rendition of a configuration error)
when the task kind has no registered template, and with the propagated
file-system error when no literal content is given and the path does not
resolve; in every failure case the oracle state is returned untouched, so
no remote call is made. -/
theorem prompt_builder_errors (env : PromptEnv) (sr t : String) (pm : Option ChatMessage)
    (st : ApiState) :
    (sendFileResult env sr t none pm st =
      (.error "File path is required for generatePrompt", pm, st)) ∧
    (∀ fr : IReadFileResult, t ∉ registeredTaskKinds →
      sendFileResult env sr t (some fr) pm st =
        (.error ("Invalid huskyGPTType: " ++ t), pm, st)) ∧
    (∀ (fr : IReadFileResult) (e : String), t ∈ registeredTaskKinds →
      (fr.fileContent = none ∨ fr.fileContent = some "") →
      env.readFileSync fr.filePath = .error e →
      sendFileResult env sr t (some fr) pm st = (.error e, pm, st)) := by
  refine ⟨rfl, ?_, ?_⟩
  · intro fr hni
    simp [sendFileResult, generatePrompt, hni]
  · intro fr e hmem hfc hread
    rcases hfc with hfc | hfc <;>
      simp [sendFileResult, generatePrompt, resolveFileContent, hmem, hfc, hread]

/-- Witness for C9: an unregistered task kind and an unresolvable path each
abort the unit synchronously with the oracle state untouched. -/
theorem prompt_builder_errors_witness :
    ("bogus" ∉ registeredTaskKinds) ∧
    (sendFileResult
        { readFileSync := fun _ => .error "ENOENT",
          pickFunctionOrClassCodeArray := fun _ => ["c"],
          readPromptFile := fun _ => "T", openAIPrompt := none }
        "" "bogus" (some { fileContent := none, filePath := some "a.ts" }) none ⟨[], []⟩ =
      (.error ("Invalid huskyGPTType: " ++ "bogus"), none, ⟨[], []⟩)) ∧
    (sendFileResult
        { readFileSync := fun _ => .error "ENOENT",
          pickFunctionOrClassCodeArray := fun _ => ["c"],
          readPromptFile := fun _ => "T", openAIPrompt := none }
        "" "review" (some { fileContent := none, filePath := some "a.ts" }) none ⟨[], []⟩ =
      (.error "ENOENT", none, ⟨[], []⟩)) :=
  ⟨by decide,
    (prompt_builder_errors
        { readFileSync := fun _ => .error "ENOENT",
          pickFunctionOrClassCodeArray := fun _ => ["c"],
          readPromptFile := fun _ => "T", openAIPrompt := none }
        "" "bogus" none ⟨[], []⟩).2.1
      { fileContent := none, filePath := some "a.ts" } (by decide),
    (prompt_builder_errors
        { readFileSync := fun _ => .error "ENOENT",
          pickFunctionOrClassCodeArray := fun _ => ["c"],
          readPromptFile := fun _ => "T", openAIPrompt := none }
        "" "review" none ⟨[], []⟩).2.2
      { fileContent := none, filePath := some "a.ts" } "ENOENT" (by decide)
      (Or.inl rfl) rfl⟩

end HuskyGPT
